import Mathlib

/-!
Verification development for the resource-governance core of the rag-api
repository: the sliding-window rate limiter (`src/src/rate_limiter.py`),
the tenant instance pool (`src/src/multi_tenant.py`), and the job/batch
tracking store (`src/api/task_store.py`, `src/api/documents.py`).

The Python code is shallowly embedded: pure computation becomes Lean
functions, mutable module-level and object state becomes explicit state
passing, `time.time()` timestamps become exact rationals, and Python
exceptions become `Except`/`Option` results.
-/

namespace RagApi

/-! ## Association lists modelling Python dicts

Python dicts preserve insertion order; assignment to an existing key keeps
its position, assignment to a fresh key appends.  An association list with
`insertA` reproduces exactly that. -/

/-- Lookup of a key in an insertion-ordered association list (`d.get(k)` /
`k in d` on a Python dict). -/
def lookupA {α : Type} (l : List (String × α)) (k : String) : Option α :=
  (l.find? (fun p => decide (p.1 = k))).map Prod.snd

/-- Assignment `d[k] = v` on a Python dict: replace in place when the key is
present, append when it is fresh. -/
def insertA {α : Type} (l : List (String × α)) (k : String) (v : α) :
    List (String × α) :=
  match l with
  | [] => [(k, v)]
  | (k', v') :: rest =>
    if k' = k then (k, v) :: rest else (k', v') :: insertA rest k v

/-- Deletion `del d[k]` on a Python dict, preserving the order of the rest. -/
def eraseA {α : Type} (l : List (String × α)) (k : String) :
    List (String × α) :=
  l.filter (fun p => decide (p.1 ≠ k))

/-! ## Sliding-window rate limiter (`RateLimiter`, src/src/rate_limiter.py:18-180)

Timestamps are exact rationals standing for `time.time()` values.  The two
queues of the source (`request_times`, `token_usage`) are time-ordered
lists.  `acquire` loops until a zero wait is computed and then records the
sample; `acquire_step` embeds one granted iteration of that loop (a `none`
result means the iteration would sleep and retry). -/

/-- State of one `RateLimiter`: the request-time queue and the token-usage
queue (src/src/rate_limiter.py:45-46). -/
structure RLState where
  request_times : List ℚ
  token_usage : List (ℚ × ℕ)
deriving DecidableEq, Repr

/-- Empty limiter state, as built by `RateLimiter.__init__`. -/
def initRLState : RLState := ⟨[], []⟩

/-- Embedding of `_cleanup_old_records(now)`: drop from the front of each
queue every sample strictly older than `now - 60`
(src/src/rate_limiter.py:121-131). -/
def cleanup_old_records (now : ℚ) (s : RLState) : RLState :=
  ⟨s.request_times.dropWhile (fun t => decide (t < now - 60)),
   s.token_usage.dropWhile (fun p => decide (p.1 < now - 60))⟩

/-- Total estimated tokens currently recorded
(`sum(tokens for _, tokens in self.token_usage)`). -/
def tokenSum (l : List (ℚ × ℕ)) : ℕ :=
  (l.map Prod.snd).sum

/-- Embedding of `_get_rpm_wait_time(now)` (src/src/rate_limiter.py:133-139).
The source indexes `request_times[0]`; the branch is only reachable with a
non-empty queue whenever `rpm_limit ≥ 1`, which every theorem below assumes
(`headI` supplies a default that is never consulted under that hypothesis). -/
def get_rpm_wait_time (rpm_limit : ℕ) (now : ℚ) (s : RLState) : ℚ :=
  if rpm_limit ≤ s.request_times.length then
    max 0 (60 - (now - s.request_times.headI))
  else 0

/-- Embedding of `_get_tpm_wait_time(now, estimated_tokens)`
(src/src/rate_limiter.py:141-152). -/
def get_tpm_wait_time (tpm_limit : ℕ) (now : ℚ) (estimated_tokens : ℕ)
    (s : RLState) : ℚ :=
  if tpm_limit < tokenSum s.token_usage + estimated_tokens then
    match s.token_usage with
    | [] => 0
    | (t, _) :: _ => max 0 (60 - (now - t))
  else 0

/-- Embedding of one granted iteration of `RateLimiter.acquire(estimated_tokens)`
(src/src/rate_limiter.py:51-119): prune, compute both waits (the TPM wait
only when `estimated_tokens > 0`), and when `max(rpm_wait, tpm_wait) ≤ 0`
record the sample and return the new state.  A `none` result means this
iteration would sleep and retry later. -/
def acquire_step (rpm_limit tpm_limit : ℕ) (now : ℚ) (estimated_tokens : ℕ)
    (s : RLState) : Option RLState :=
  let s' := cleanup_old_records now s
  let rpm_wait := get_rpm_wait_time rpm_limit now s'
  let tpm_wait := if 0 < estimated_tokens then
    get_tpm_wait_time tpm_limit now estimated_tokens s' else 0
  if max rpm_wait tpm_wait ≤ 0 then
    some ⟨s'.request_times ++ [now],
      if 0 < estimated_tokens then s'.token_usage ++ [(now, estimated_tokens)]
      else s'.token_usage⟩
  else none

/-- Run a sequence of granted `acquire` calls, each given as the pair
(grant instant, estimated_tokens).  The whole run fails if any call would
have had to wait at its instant. -/
def run_trace (rpm_limit tpm_limit : ℕ) :
    List (ℚ × ℕ) → RLState → Option RLState
  | [], s => some s
  | (t, e) :: rest, s =>
    match acquire_step rpm_limit tpm_limit t e s with
    | some s' => run_trace rpm_limit tpm_limit rest s'
    | none => none

/-- Largest `estimated_tokens` value appearing in a trace. -/
def maxEst (events : List (ℚ × ℕ)) : ℕ :=
  (events.map Prod.snd).foldr max 0

/-- Samples of a queue lying strictly inside the trailing 60-second window
at instant `now`. -/
def window_requests (now : ℚ) (l : List ℚ) : List ℚ :=
  l.filter (fun t => decide (now - 60 < t))

/-- Invariant of a limiter state reachable through granted acquires: every
recorded timestamp is one of the grant instants `T`, the request queue never
exceeds `rpm_limit`, and the recorded token sum never exceeds
`max tpm_limit M` where `M` bounds every estimate of the trace. -/
def StInv (rpm_limit tpm_limit : ℕ) (T : List ℚ) (M : ℕ) (s : RLState) : Prop :=
  (∀ t ∈ s.request_times, t ∈ T) ∧ (∀ p ∈ s.token_usage, p.1 ∈ T) ∧
  s.request_times.length ≤ rpm_limit ∧ tokenSum s.token_usage ≤ max tpm_limit M

/-! ## Concurrency budget: `calculate_optimal_concurrent`
(src/src/rate_limiter.py:263-319)

Python's `int()` conversion truncates toward zero; `pyIntTrunc` models it
exactly on rationals. -/

/-- Truncation toward zero, the semantics of Python's `int()` on a
float/rational. -/
def pyIntTrunc (q : ℚ) : ℤ :=
  if 0 ≤ q then ⌊q⌋ else ⌈q⌉

/-- Embedding of `calculate_optimal_concurrent(requests_per_minute, tokens_per_minute,
avg_tokens_per_request, avg_request_duration_seconds)`.  The source computes
`concurrent_by_rpm = requests_per_minute`;
`tokens_per_duration = tokens_per_minute * (avg_request_duration_seconds / 60.0)`;
`concurrent_by_tpm = int(tokens_per_duration / avg_tokens_per_request)`;
returns `max(2, min(concurrent_by_rpm, concurrent_by_tpm))`. -/
def calculate_optimal_concurrent (requests_per_minute tokens_per_minute
    avg_tokens_per_request : ℤ) (avg_request_duration_seconds : ℚ) : ℤ :=
  let concurrent_by_rpm : ℤ := requests_per_minute
  let tokens_per_duration : ℚ :=
    (tokens_per_minute : ℚ) * (avg_request_duration_seconds / 60)
  let concurrent_by_tpm : ℤ :=
    pyIntTrunc (tokens_per_duration / (avg_tokens_per_request : ℚ))
  max 2 (min concurrent_by_rpm concurrent_by_tpm)

/-! ## Gate registry: `get_rate_limiter` (src/src/rate_limiter.py:259-462)

The module-level `_limiters` dict becomes an explicit registry threaded
through the call.  `config.{service}.max_async` (the environment-variable
expert mode) is abstracted as a function parameter `env_max_async`. -/

/-- Constructor arguments of an `AsyncSemaphoreWithRateLimit` gate
(src/src/rate_limiter.py:190-213); the logging-only
`service_name=service.upper()` argument is not modelled. -/
structure GateCfg where
  max_concurrent : ℕ
  requests_per_minute : ℕ
  tokens_per_minute : ℕ
deriving DecidableEq, Repr

/-- Per-service average token estimate table (`avg_tokens_map`). -/
def avg_tokens_for (service : String) : ℕ :=
  if service = "llm" then 3500
  else if service = "embedding" then 500
  else if service = "rerank" then 500
  else if service = "ds_ocr" then 3500
  else 3500

/-- Per-service request duration table (`request_duration_map`). -/
def request_duration_for (service : String) : ℚ :=
  if service = "llm" then 3
  else if service = "embedding" then 1
  else if service = "rerank" then 1
  else if service = "ds_ocr" then 3
  else 2

/-- Per-service default RPM/TPM table (`default_rpm_tpm`). -/
def default_rpm_tpm_for (service : String) : ℕ × ℕ :=
  if service = "llm" then (800, 40000)
  else if service = "embedding" then (1600, 400000)
  else if service = "rerank" then (1600, 400000)
  else if service = "ds_ocr" then (800, 40000)
  else (1000, 50000)

/-- Python `x or default` on an optional int: `None` and `0` are both falsy. -/
def orDefault (x : Option ℕ) (dflt : ℕ) : ℕ :=
  match x with
  | some v => if v = 0 then dflt else v
  | none => dflt

/-- Embedding of `get_rate_limiter(service, max_concurrent, requests_per_minute,
tokens_per_minute)` acting on the `_limiters` registry
(src/src/rate_limiter.py:322-462).  When `service` is already registered the
memoized gate is returned untouched; otherwise the effective RPM/TPM are
resolved (tenant override, falsy values falling back to the service default),
the concurrency is taken from the explicit parameter, then the
`env_max_async` expert setting, then auto-computed, clamped below at 2, and
the new gate is registered.  Returns the gate together with the updated
registry. -/
def get_rate_limiter (env_max_async : String → Option ℕ) (service : String)
    (max_concurrent requests_per_minute tokens_per_minute : Option ℕ)
    (limiters : List (String × GateCfg)) : GateCfg × List (String × GateCfg) :=
  match lookupA limiters service with
  | some gate => (gate, limiters)
  | none =>
    let dflt := default_rpm_tpm_for service
    let avg_tokens := avg_tokens_for service
    let request_duration := request_duration_for service
    let effective_rpm := orDefault requests_per_minute dflt.1
    let effective_tpm := orDefault tokens_per_minute dflt.2
    let chosen : Option ℕ :=
      match max_concurrent with
      | some c => some c
      | none => env_max_async service
    let final : ℤ :=
      match chosen with
      | some c => (c : ℤ)
      | none => calculate_optimal_concurrent (effective_rpm : ℤ)
          (effective_tpm : ℤ) (avg_tokens : ℤ) request_duration
    let final_concurrent : ℕ := if final < 2 then 2 else final.toNat
    let gate : GateCfg := ⟨final_concurrent, effective_rpm, effective_tpm⟩
    (gate, insertA limiters service gate)

/-! ## Tenant instance pool (`MultiTenantRAGManager`, src/src/multi_tenant.py:23-477)

The `_instances` dict becomes an insertion-ordered association list, the
expensive handle type is a parameter `H`, and `_create_instance` (remote
initialization, which can raise) is a parameter `create` returning `none`
on failure. -/

/-- Errors raised by `get_instance`: the `ValueError` on an invalid
tenant id, and a propagated construction failure. -/
inductive PoolError where
  | invalidTenant
  | createFailed
deriving DecidableEq, Repr

/-- Embedding of `MultiTenantRAGManager.get_instance(tenant_id)`
(src/src/multi_tenant.py:348-379): reject a falsy (empty) tenant id; return
the cached handle when present; otherwise, when the pool is full, evict the
first-inserted tenant (`next(iter(self._instances))`), then construct and
append the new handle.  Returns the result together with the post-call pool
so the state after a propagated construction failure is observable. -/
def get_instance {H : Type} (create : String → Option H) (max_instances : ℕ)
    (pool : List (String × H)) (tenant_id : String) :
    Except PoolError H × List (String × H) :=
  if tenant_id = "" then (.error .invalidTenant, pool)
  else
    match lookupA pool tenant_id with
    | some h => (.ok h, pool)
    | none =>
      let pool' := if max_instances ≤ pool.length then pool.drop 1 else pool
      match create tenant_id with
      | none => (.error .createFailed, pool')
      | some h => (.ok h, pool' ++ [(tenant_id, h)])

/-- Embedding of `MultiTenantRAGManager.remove_instance(tenant_id)`
(src/src/multi_tenant.py:455-469). -/
def remove_instance {H : Type} (pool : List (String × H)) (tenant_id : String) :
    Bool × List (String × H) :=
  match lookupA pool tenant_id with
  | some _ => (true, eraseA pool tenant_id)
  | none => (false, pool)

/-- One pool call in a sequence: either `get_instance` or `remove_instance`. -/
inductive PoolOp where
  | get (tenant_id : String)
  | remove (tenant_id : String)

/-- State effect of one pool call. -/
def pool_step {H : Type} (create : String → Option H) (max_instances : ℕ)
    (pool : List (String × H)) : PoolOp → List (String × H)
  | .get tid => (get_instance create max_instances pool tid).2
  | .remove tid => (remove_instance pool tid).2

/-- Run a sequence of pool calls. -/
def run_pool {H : Type} (create : String → Option H) (max_instances : ℕ) :
    List PoolOp → List (String × H) → List (String × H)
  | [], pool => pool
  | op :: rest, pool =>
    run_pool create max_instances rest (pool_step create max_instances pool op)

/-! ## Job/batch tracking store (src/api/task_store.py, src/api/documents.py)

The in-memory backend `_MemoryStore` is the default and the model here: the
nested dict `tasks[tenant_id][task_id]` becomes a nested association list.
`datetime.now()` strings and generated task ids are passed in as
parameters. -/

/-- The `TaskStatus` enum (src/api/models.py:10-16). -/
inductive TaskStatus where
  | pending
  | processing
  | deleting
  | completed
  | failed
deriving DecidableEq, Repr

/-- The `TaskInfo` record (src/api/models.py:19-70); the opaque `result`
payload dict is modelled as an uninterpreted string. -/
structure TaskInfo where
  task_id : String
  status : TaskStatus
  doc_id : String
  filename : String
  created_at : String
  updated_at : String
  error : Option String := none
  result : Option String := none
deriving DecidableEq, Repr

/-- A `**kwargs` partial update as passed to `update_task`: only the fields
the callers of the repository actually pass; `none` means the keyword was
not supplied (so `setattr` is not executed for it). -/
structure TaskUpdate where
  status : Option TaskStatus := none
  updated_at : Option String := none
  error : Option String := none
  result : Option String := none
deriving DecidableEq, Repr

/-- Apply the `setattr` loop of `update_task` to one record. -/
def applyUpdate (u : TaskUpdate) (t : TaskInfo) : TaskInfo :=
  { t with
    status := u.status.getD t.status
    updated_at := u.updated_at.getD t.updated_at
    error := match u.error with | some e => some e | none => t.error
    result := match u.result with | some r => some r | none => t.result }

/-- In-memory backend state: `tenant_id → task_id → TaskInfo`
(src/api/task_store.py:32). -/
def MemoryStore : Type := List (String × List (String × TaskInfo))

/-- Embedding of `_MemoryStore.get_task` (src/api/task_store.py:35-36). -/
def get_task (st : MemoryStore) (tenant_id task_id : String) : Option TaskInfo :=
  match lookupA st tenant_id with
  | some m => lookupA m task_id
  | none => none

/-- Embedding of `_MemoryStore.create_task` (src/api/task_store.py:38-42). -/
def create_task (st : MemoryStore) (tenant_id : String) (task_info : TaskInfo) :
    MemoryStore :=
  let m := (lookupA st tenant_id).getD []
  insertA st tenant_id (insertA m task_info.task_id task_info)

/-- Embedding of `_MemoryStore.update_task` (src/api/task_store.py:44-48):
read-modify-write with no guard of any kind on the current status; a silent
no-op when the tenant or task id is absent. -/
def update_task (st : MemoryStore) (tenant_id task_id : String)
    (u : TaskUpdate) : MemoryStore :=
  match lookupA st tenant_id with
  | none => st
  | some m =>
    match lookupA m task_id with
    | none => st
    | some t => insertA st tenant_id (insertA m task_id (applyUpdate u t))

/-- Embedding of `_MemoryStore.get_tenant_tasks` (src/api/task_store.py:57-58). -/
def get_tenant_tasks (st : MemoryStore) (tenant_id : String) :
    List (String × TaskInfo) :=
  (lookupA st tenant_id).getD []

/-- Embedding of `get_deletion_task(tenant_id, doc_id)`
(src/api/task_store.py:426-444): scan the tenant's tasks for one whose
`doc_id` matches and whose status is `pending` or `deleting`. -/
def get_deletion_task (st : MemoryStore) (tenant_id doc_id : String) :
    Option TaskInfo :=
  ((get_tenant_tasks st tenant_id).map Prod.snd).find?
    (fun t => decide (t.doc_id = doc_id) &&
      (decide (t.status = .pending) || decide (t.status = .deleting)))

/-- Embedding of `create_deletion_task(tenant_id, doc_id)`
(src/api/task_store.py:384-423); the generated `deletion_xxxxxxxx` id and
the `datetime.now()` string are parameters.  The record is created with
status `pending` and `filename = doc_id`. -/
def create_deletion_task (st : MemoryStore) (tenant_id doc_id task_id now : String) :
    MemoryStore :=
  create_task st tenant_id
    ⟨task_id, .pending, doc_id, doc_id, now, now, none, none⟩

/-- Embedding of `update_deletion_task(task_id, tenant_id, **kwargs)`
(src/api/task_store.py:447-456), which delegates to the store's
`update_task`. -/
def update_deletion_task (st : MemoryStore) (task_id tenant_id : String)
    (u : TaskUpdate) : MemoryStore :=
  update_task st tenant_id task_id u

/-- Embedding of the guard-and-create part of the `DELETE /documents` route
`delete_document` (src/api/documents.py:138-187): when `get_deletion_task`
finds an in-flight deletion it raises HTTP 400 `"the doc is deleting"`;
otherwise the deletion task is created and its id returned (the background
execution itself is outside this model). -/
def delete_document (st : MemoryStore) (tenant_id doc_id task_id now : String) :
    Except String (String × MemoryStore) :=
  match get_deletion_task st tenant_id doc_id with
  | some _ => .error "the doc is deleting"
  | none => .ok (task_id, create_deletion_task st tenant_id doc_id task_id now)

end RagApi

/-! ## Helper lemmas -/

namespace RagApi

theorem pyIntTrunc_mono {a b : ℚ} (h : a ≤ b) : pyIntTrunc a ≤ pyIntTrunc b := by
  unfold pyIntTrunc
  by_cases ha : 0 ≤ a
  · rw [if_pos ha, if_pos (le_trans ha h)]
    exact Int.floor_le_floor h
  · rw [if_neg ha]
    by_cases hb : 0 ≤ b
    · rw [if_pos hb]
      have hc : ⌈a⌉ ≤ 0 := Int.ceil_le.mpr (by exact_mod_cast le_of_lt (not_le.mp ha))
      exact le_trans hc (Int.floor_nonneg.mpr hb)
    · rw [if_neg hb]
      exact Int.ceil_le_ceil h

theorem dropWhile_head_false {α : Type} (p : α → Bool) (l : List α) (h : α)
    (t : List α) (he : l.dropWhile p = h :: t) : p h = false := by
  induction l with
  | nil => simp [List.dropWhile] at he
  | cons a as ih =>
    rw [List.dropWhile_cons] at he
    by_cases hpa : p a = true
    · rw [if_pos hpa] at he
      exact ih he
    · rw [if_neg hpa] at he
      injection he with h1 _
      subst h1
      simp only [Bool.not_eq_true] at hpa
      exact hpa

theorem sublist_sum_le {l₁ l₂ : List ℕ} (h : l₁.Sublist l₂) : l₁.sum ≤ l₂.sum := by
  induction h with
  | slnil => exact le_refl 0
  | cons a _ ih => exact le_trans ih (by simp [List.sum_cons])
  | cons₂ a _ ih => simpa [List.sum_cons] using Nat.add_le_add_left ih a

theorem tokenSum_dropWhile_le (p : ℚ × ℕ → Bool) (l : List (ℚ × ℕ)) :
    tokenSum (l.dropWhile p) ≤ tokenSum l :=
  sublist_sum_le ((List.dropWhile_sublist p).map Prod.snd)

theorem tokenSum_append (l : List (ℚ × ℕ)) (q : ℚ) (n : ℕ) :
    tokenSum (l ++ [(q, n)]) = tokenSum l + n := by
  simp [tokenSum]

theorem le_maxEst (events : List (ℚ × ℕ)) (e : ℚ × ℕ) (h : e ∈ events) :
    e.2 ≤ maxEst events := by
  induction events with
  | nil => cases h
  | cons a rest ih =>
    rcases List.mem_cons.mp h with rfl | hm
    · exact le_max_left _ _
    · exact le_trans (ih hm) (le_max_right _ _)

theorem max2_min_trunc_eq_floor (rpm : ℤ) (q : ℚ) :
    max 2 (min rpm (pyIntTrunc q)) = max 2 (min rpm ⌊q⌋) := by
  unfold pyIntTrunc
  split_ifs with h
  · rfl
  · have hc : ⌈q⌉ ≤ 0 := Int.ceil_le.mpr (by exact_mod_cast le_of_lt (not_le.mp h))
    have hf : ⌊q⌋ ≤ 0 := le_trans (Int.floor_le_ceil q) hc
    rw [max_eq_left (le_trans (min_le_right rpm ⌈q⌉) (by omega)),
      max_eq_left (le_trans (min_le_right rpm ⌊q⌋) (by omega))]

theorem lookupA_insertA_self {α : Type} (l : List (String × α)) (k : String)
    (v : α) : lookupA (insertA l k v) k = some v := by
  induction l with
  | nil => simp [insertA, lookupA]
  | cons p rest ih =>
    obtain ⟨k', v'⟩ := p
    by_cases h : k' = k
    · simp [insertA, if_pos h, lookupA]
    · simp only [insertA, if_neg h]
      simp only [lookupA] at ih ⊢
      rw [List.find?_cons_of_neg _ (by simp [h])]
      exact ih

theorem lookupA_eq_none_iff {α : Type} (l : List (String × α)) (k : String) :
    lookupA l k = none ↔ ∀ p ∈ l, p.1 ≠ k := by
  unfold lookupA
  rw [Option.map_eq_none', List.find?_eq_none]
  constructor <;> intro h p hp <;> simpa using h p hp

theorem acquire_step_inv (rpm tpm : ℕ) (T : List ℚ) (M : ℕ)
    (hrpm : 1 ≤ rpm) (hsep : ∀ t₁ ∈ T, ∀ t₂ ∈ T, t₂ - t₁ ≠ 60)
    (now : ℚ) (est : ℕ) (hnow : now ∈ T) (hest : est ≤ M)
    (s s₂ : RLState) (hinv : StInv rpm tpm T M s)
    (hs : acquire_step rpm tpm now est s = some s₂) :
    StInv rpm tpm T M s₂ := by
  obtain ⟨hTreq, hTtok, hlen, hsum⟩ := hinv
  simp only [acquire_step] at hs
  set s' := cleanup_old_records now s with hs'
  have hreq' : s'.request_times
      = s.request_times.dropWhile (fun t => decide (t < now - 60)) := rfl
  have htok' : s'.token_usage
      = s.token_usage.dropWhile (fun p => decide (p.1 < now - 60)) := rfl
  have hreqmem : ∀ t ∈ s'.request_times, t ∈ T := by
    intro t ht
    rw [hreq'] at ht
    exact hTreq t ((List.dropWhile_sublist _).subset ht)
  have htokmem : ∀ p ∈ s'.token_usage, p.1 ∈ T := by
    intro p hp
    rw [htok'] at hp
    exact hTtok p ((List.dropWhile_sublist _).subset hp)
  by_cases hcond : max (get_rpm_wait_time rpm now s')
      (if 0 < est then get_tpm_wait_time tpm now est s' else 0) ≤ 0
  case neg => rw [if_neg hcond] at hs; cases hs
  rw [if_pos hcond] at hs
  injection hs with hs2
  obtain ⟨hw1, hw2⟩ := max_le_iff.mp hcond
  have hlt : s'.request_times.length < rpm := by
    by_contra hge
    push_neg at hge
    unfold get_rpm_wait_time at hw1
    rw [if_pos hge] at hw1
    have hx : (60 : ℚ) - (now - s'.request_times.headI) ≤ 0 :=
      le_trans (le_max_right 0 _) hw1
    obtain ⟨hd, tl, hcons⟩ : ∃ hd tl, s'.request_times = hd :: tl := by
      cases hreqc : s'.request_times with
      | nil => rw [hreqc] at hge; simp at hge; omega
      | cons a b => exact ⟨a, b, rfl⟩
    have hhd : ¬ (hd < now - 60) :=
      of_decide_eq_false
        (dropWhile_head_false _ s.request_times hd tl (hreq' ▸ hcons))
    have hheadI : s'.request_times.headI = hd := by rw [hcons]; rfl
    have hmemT : hd ∈ T := hreqmem hd (by rw [hcons]; exact List.mem_cons_self _ _)
    have heq : now - hd = 60 := by
      rw [hheadI] at hx
      have h2 : now - 60 ≤ hd := not_lt.mp hhd
      linarith
    exact hsep hd hmemT now hnow heq
  have htoksum : tokenSum (if 0 < est then s'.token_usage ++ [(now, est)]
      else s'.token_usage) ≤ max tpm M := by
    by_cases hpos : 0 < est
    · rw [if_pos hpos]
      rw [if_pos hpos] at hw2
      rw [tokenSum_append]
      by_cases hover : tpm < tokenSum s'.token_usage + est
      · unfold get_tpm_wait_time at hw2
        rw [if_pos hover] at hw2
        cases htokc : s'.token_usage with
        | nil =>
          simp only [tokenSum, List.map_nil, List.sum_nil, Nat.zero_add]
          exact le_trans hest (le_max_right tpm M)
        | cons p rest =>
          exfalso
          obtain ⟨pt, pn⟩ := p
          rw [htokc] at hw2
          dsimp only at hw2
          have hx : (60 : ℚ) - (now - pt) ≤ 0 := le_trans (le_max_right 0 _) hw2
          have hp1 : ¬ (pt < now - 60) :=
            of_decide_eq_false
              (dropWhile_head_false _ s.token_usage (pt, pn) rest (htok' ▸ htokc))
          have hmemT : pt ∈ T :=
            htokmem (pt, pn) (by rw [htokc]; exact List.mem_cons_self _ _)
          have heq : now - pt = 60 := by
            have h2 : now - 60 ≤ pt := not_lt.mp hp1
            linarith
          exact hsep pt hmemT now hnow heq
      · push_neg at hover
        exact le_trans hover (le_max_left tpm M)
    · rw [if_neg hpos]
      have hle : tokenSum s'.token_usage ≤ tokenSum s.token_usage := by
        rw [htok']
        exact tokenSum_dropWhile_le _ _
      exact le_trans hle hsum
  subst hs2
  refine ⟨?_, ?_, ?_, htoksum⟩
  · intro t ht
    rcases List.mem_append.mp ht with h | h
    · exact hreqmem t h
    · rw [List.mem_singleton] at h
      subst h
      exact hnow
  · intro p hp
    by_cases hpos : 0 < est
    · rw [if_pos hpos] at hp
      rcases List.mem_append.mp hp with h | h
      · exact htokmem p h
      · rw [List.mem_singleton] at h
        subst h
        exact hnow
    · rw [if_neg hpos] at hp
      exact htokmem p hp
  · rw [List.length_append]
    simp only [List.length_singleton]
    omega

theorem run_trace_inv (rpm tpm : ℕ) (T : List ℚ) (M : ℕ)
    (hrpm : 1 ≤ rpm) (hsep : ∀ t₁ ∈ T, ∀ t₂ ∈ T, t₂ - t₁ ≠ 60) :
    ∀ (events : List (ℚ × ℕ)) (s s₂ : RLState),
      (∀ e ∈ events, e.1 ∈ T ∧ e.2 ≤ M) → StInv rpm tpm T M s →
      run_trace rpm tpm events s = some s₂ → StInv rpm tpm T M s₂ := by
  intro events
  induction events with
  | nil =>
    intro s s₂ _ hinv hrun
    unfold run_trace at hrun
    injection hrun with h
    subst h
    exact hinv
  | cons e rest ih =>
    intro s s₂ hev hinv hrun
    obtain ⟨t, n⟩ := e
    unfold run_trace at hrun
    cases hstep : acquire_step rpm tpm t n s with
    | none => rw [hstep] at hrun; cases hrun
    | some s₁ =>
      rw [hstep] at hrun
      have he := hev (t, n) (List.mem_cons_self _ _)
      exact ih s₁ s₂ (fun e' he' => hev e' (List.mem_cons_of_mem _ he'))
        (acquire_step_inv rpm tpm T M hrpm hsep t n he.1 he.2 s s₁ hinv hstep) hrun

theorem pool_step_length_le {H : Type} (create : String → Option H)
    (max_instances : ℕ) (pool : List (String × H)) (op : PoolOp)
    (hmax : 1 ≤ max_instances) (hlen : pool.length ≤ max_instances) :
    (pool_step create max_instances pool op).length ≤ max_instances := by
  cases op with
  | remove tid =>
    simp only [pool_step, remove_instance]
    cases lookupA pool tid with
    | some h => exact le_trans (List.length_filter_le _ _) hlen
    | none => exact hlen
  | get tid =>
    simp only [pool_step, get_instance]
    by_cases he : tid = ""
    · rw [if_pos he]
      exact hlen
    · rw [if_neg he]
      cases lookupA pool tid with
      | some h => exact hlen
      | none =>
        cases create tid with
        | none =>
          by_cases hf : max_instances ≤ pool.length
          · rw [if_pos hf]
            rw [List.length_drop]
            omega
          · rw [if_neg hf]
            exact hlen
        | some h =>
          by_cases hf : max_instances ≤ pool.length
          · rw [if_pos hf, List.length_append, List.length_drop]
            simp only [List.length_singleton]
            omega
          · rw [if_neg hf, List.length_append]
            simp only [List.length_singleton]
            omega

theorem run_pool_length_le {H : Type} (create : String → Option H)
    (max_instances : ℕ) (hmax : 1 ≤ max_instances) :
    ∀ (ops : List PoolOp) (pool : List (String × H)),
      pool.length ≤ max_instances →
      (run_pool create max_instances ops pool).length ≤ max_instances := by
  intro ops
  induction ops with
  | nil => intro pool h; exact h
  | cons op rest ih =>
    intro pool h
    exact ih _ (pool_step_length_le create max_instances pool op hmax h)

theorem get_rate_limiter_of_mem (env_max_async : String → Option ℕ)
    (service : String) (mc rpm tpm : Option ℕ)
    (limiters : List (String × GateCfg)) (gate : GateCfg)
    (hl : lookupA limiters service = some gate) :
    get_rate_limiter env_max_async service mc rpm tpm limiters
      = (gate, limiters) := by
  unfold get_rate_limiter
  rw [hl]

theorem get_rate_limiter_registers (env_max_async : String → Option ℕ)
    (service : String) (mc rpm tpm : Option ℕ)
    (limiters : List (String × GateCfg))
    (hl : lookupA limiters service = none) :
    lookupA (get_rate_limiter env_max_async service mc rpm tpm limiters).2 service
      = some (get_rate_limiter env_max_async service mc rpm tpm limiters).1 := by
  unfold get_rate_limiter
  rw [hl]
  exact lookupA_insertA_self _ _ _

theorem get_task_update_eq (st : MemoryStore) (tenant task : String)
    (u : TaskUpdate) (t : TaskInfo) (hget : get_task st tenant task = some t) :
    get_task (update_task st tenant task u) tenant task
      = some (applyUpdate u t) := by
  cases hlt : lookupA st tenant with
  | none =>
    simp only [get_task, hlt] at hget
    cases hget
  | some m =>
    simp only [get_task, hlt] at hget
    simp only [update_task, hlt, hget]
    simp only [get_task, lookupA_insertA_self]

theorem update_task_of_get_task_none (st : MemoryStore) (tenant task : String)
    (u : TaskUpdate) (hget : get_task st tenant task = none) :
    update_task st tenant task u = st := by
  cases hlt : lookupA st tenant with
  | none => simp only [update_task, hlt]
  | some m =>
    simp only [get_task, hlt] at hget
    simp only [update_task, hlt, hget]

end RagApi

/-! ## Claim theorems -/

/-- C6: `compute_concurrency` returns
`max(2, min(rpm_limit, floor(tpm_limit * dur / 60 / avg_tokens)))` for every
input (Python's toward-zero `int()` and the floor agree wherever they could
differ, because the clamp to 2 absorbs every negative case), and in
particular `compute_concurrency(60, 6000, 100, 1) = 2`, the clamped floor. -/
theorem concurrency_formula :
    (∀ (rpm tpm avg : ℤ) (dur : ℚ),
      RagApi.calculate_optimal_concurrent rpm tpm avg dur
        = max 2 (min rpm ⌊((tpm : ℚ) * (dur / 60)) / (avg : ℚ)⌋))
    ∧ RagApi.calculate_optimal_concurrent 60 6000 100 1 = 2 := by
  constructor
  · intro rpm tpm avg dur
    exact RagApi.max2_min_trunc_eq_floor rpm (((tpm : ℚ) * (dur / 60)) / (avg : ℚ))
  · norm_num [RagApi.calculate_optimal_concurrent, RagApi.pyIntTrunc]

/-- C8: `compute_concurrency` is monotonically non-decreasing in `tpm_limit`
(with the other parameters fixed, the token and duration parameters being
positive resp. non-negative quantities), monotonically non-decreasing in
`rpm_limit`, and for every input returns at least the configured floor of 2. -/
theorem concurrency_monotone :
    (∀ (rpm avg tpm₁ tpm₂ : ℤ) (dur : ℚ), 0 < avg → 0 ≤ dur → tpm₁ ≤ tpm₂ →
      RagApi.calculate_optimal_concurrent rpm tpm₁ avg dur
        ≤ RagApi.calculate_optimal_concurrent rpm tpm₂ avg dur)
    ∧ (∀ (tpm avg rpm₁ rpm₂ : ℤ) (dur : ℚ), rpm₁ ≤ rpm₂ →
      RagApi.calculate_optimal_concurrent rpm₁ tpm avg dur
        ≤ RagApi.calculate_optimal_concurrent rpm₂ tpm avg dur)
    ∧ (∀ (rpm tpm avg : ℤ) (dur : ℚ),
      2 ≤ RagApi.calculate_optimal_concurrent rpm tpm avg dur) := by
  refine ⟨?_, ?_, ?_⟩
  · intro rpm avg tpm₁ tpm₂ dur havg hdur htpm
    have hcast : (tpm₁ : ℚ) ≤ (tpm₂ : ℚ) := by exact_mod_cast htpm
    have hdur60 : (0 : ℚ) ≤ dur / 60 := by positivity
    have havgq : (0 : ℚ) < (avg : ℚ) := by exact_mod_cast havg
    have hmul : (tpm₁ : ℚ) * (dur / 60) ≤ (tpm₂ : ℚ) * (dur / 60) :=
      mul_le_mul_of_nonneg_right hcast hdur60
    have hdiv : (tpm₁ : ℚ) * (dur / 60) / (avg : ℚ)
        ≤ (tpm₂ : ℚ) * (dur / 60) / (avg : ℚ) :=
      div_le_div_of_nonneg_right hmul havgq.le
    exact max_le_max (le_refl 2)
      (min_le_min (le_refl rpm) (RagApi.pyIntTrunc_mono hdiv))
  · intro tpm avg rpm₁ rpm₂ dur hrpm
    exact max_le_max (le_refl 2) (min_le_min hrpm (le_refl _))
  · intro rpm tpm avg dur
    exact le_max_left 2 _

/-- Witness for `concurrency_monotone` at concrete inputs. -/
theorem concurrency_monotone_witness :
    RagApi.calculate_optimal_concurrent 10 100 5 1
      ≤ RagApi.calculate_optimal_concurrent 10 200 5 1 :=
  concurrency_monotone.1 10 5 100 200 1 (by norm_num) (by norm_num) (by norm_num)

/-- C3 (amended): for every sequence of granted `acquire` calls against one
limiter with limits `R ≥ 1` and `T`, provided no two grant instants differ
by exactly 60 seconds, the recorded (granted-and-unexpired) request samples
after the run number at most `R` and their summed token cost is at most
`T` plus the single largest `estimated_tokens` of the sequence.  Every
prefix of an accepted trace is itself accepted, so the bound holds at each
grant instant.  The exactly-60s proviso is forced by the code: `_cleanup_old_records`
prunes with a strict comparison while the wait computations return 0 at age
exactly 60, so a grant at that boundary instant can exceed both limits (see
the counterexample). -/
theorem limiter_window_bounds (rpm_limit tpm_limit : ℕ) (events : List (ℚ × ℕ))
    (s : RagApi.RLState) (hrpm : 1 ≤ rpm_limit)
    (hsep : ∀ t₁ ∈ events.map Prod.fst, ∀ t₂ ∈ events.map Prod.fst, t₂ - t₁ ≠ 60)
    (hrun : RagApi.run_trace rpm_limit tpm_limit events RagApi.initRLState = some s) :
    s.request_times.length ≤ rpm_limit
    ∧ RagApi.tokenSum s.token_usage ≤ tpm_limit + RagApi.maxEst events := by
  have hinv := RagApi.run_trace_inv rpm_limit tpm_limit (events.map Prod.fst)
    (RagApi.maxEst events) hrpm hsep events RagApi.initRLState s
    (fun e he => ⟨List.mem_map_of_mem Prod.fst he, RagApi.le_maxEst events e he⟩)
    ⟨fun t ht => absurd ht (List.not_mem_nil t),
      fun p hp => absurd hp (List.not_mem_nil p),
      Nat.zero_le _, Nat.zero_le _⟩ hrun
  exact ⟨hinv.2.2.1,
    le_trans hinv.2.2.2 (max_le (Nat.le_add_right _ _) (Nat.le_add_left _ _))⟩

/-- Witness for `limiter_window_bounds`: a concrete two-grant trace. -/
theorem limiter_window_bounds_witness :
    (⟨[0, 1], [(0, 3), (1, 4)]⟩ : RagApi.RLState).request_times.length ≤ 2
    ∧ RagApi.tokenSum (⟨[0, 1], [(0, 3), (1, 4)]⟩ : RagApi.RLState).token_usage
      ≤ 10 + RagApi.maxEst [(0, 3), (1, 4)] :=
  limiter_window_bounds 2 10 [(0, 3), (1, 4)] ⟨[0, 1], [(0, 3), (1, 4)]⟩
    (by norm_num) (by norm_num)
    (by norm_num [RagApi.run_trace, RagApi.acquire_step, RagApi.cleanup_old_records,
      RagApi.get_rpm_wait_time, RagApi.get_tpm_wait_time, RagApi.tokenSum,
      RagApi.initRLState, List.dropWhile])

/-- Counterexample to C3 as stated: with `rpm_limit = 1`, grants at instants
0, 60 and 60 are all accepted by the code (the sample of age exactly 60 is
not pruned but yields a zero wait), leaving three recorded samples — of
which the two at instant 60 lie strictly inside the trailing 60-second
window — so the granted-and-unexpired samples exceed R = 1. -/
theorem limiter_window_bounds_boundary_violation :
    RagApi.run_trace 1 100 [(0, 0), (60, 0), (60, 0)] RagApi.initRLState
      = some ⟨[0, 60, 60], []⟩
    ∧ (RagApi.window_requests 60 [0, 60, 60]).length = 2
    ∧ ¬ ((RagApi.window_requests 60 [0, 60, 60]).length ≤ 1) := by
  refine ⟨?_, ?_, ?_⟩
  · norm_num [RagApi.run_trace, RagApi.acquire_step, RagApi.cleanup_old_records,
      RagApi.get_rpm_wait_time, RagApi.get_tpm_wait_time, RagApi.tokenSum,
      RagApi.initRLState, List.dropWhile]
  · norm_num [RagApi.window_requests, List.filter]
  · norm_num [RagApi.window_requests, List.filter]

/-- C9: whenever both sample queues are empty after pruning, both computed
wait times are 0 and `acquire` records the sample and returns in that very
iteration, for every `estimated_tokens` value — including one strictly
larger than `tpm_limit` — so an always-too-large request is granted as soon
as the trailing window empties and never deadlocks.  (`rpm_limit ≥ 1` is
assumed: the source would raise an `IndexError` on `request_times[0]` with
`rpm_limit = 0` and an empty queue.) -/
theorem acquire_grants_on_empty_window (rpm_limit tpm_limit : ℕ) (now : ℚ)
    (estimated_tokens : ℕ) (s : RagApi.RLState) (hrpm : 1 ≤ rpm_limit)
    (hempty : RagApi.cleanup_old_records now s = ⟨[], []⟩) :
    RagApi.get_rpm_wait_time rpm_limit now (RagApi.cleanup_old_records now s) = 0
    ∧ RagApi.get_tpm_wait_time tpm_limit now estimated_tokens
        (RagApi.cleanup_old_records now s) = 0
    ∧ RagApi.acquire_step rpm_limit tpm_limit now estimated_tokens s
      = some ⟨[now], if 0 < estimated_tokens then [(now, estimated_tokens)] else []⟩ := by
  have h1 : RagApi.get_rpm_wait_time rpm_limit now (⟨[], []⟩ : RagApi.RLState) = 0 := by
    unfold RagApi.get_rpm_wait_time
    rw [if_neg (by simp; omega)]
  have h2 : RagApi.get_tpm_wait_time tpm_limit now estimated_tokens
      (⟨[], []⟩ : RagApi.RLState) = 0 := by
    unfold RagApi.get_tpm_wait_time
    split_ifs <;> rfl
  refine ⟨by rw [hempty]; exact h1, by rw [hempty]; exact h2, ?_⟩
  simp only [RagApi.acquire_step, hempty, h1, h2, ite_self, max_self, le_refl,
    if_true, List.nil_append]

/-- Witness for `acquire_grants_on_empty_window`: at instant 100 the sample
from instant 5 has aged out, and a request estimating 1000 tokens against a
`tpm_limit` of only 10 is granted immediately. -/
theorem acquire_grants_on_empty_window_witness :
    RagApi.acquire_step 1 10 100 1000 ⟨[5], [(5, 100)]⟩
      = some ⟨[100], [(100, 1000)]⟩ := by
  have h := acquire_grants_on_empty_window 1 10 100 1000 ⟨[5], [(5, 100)]⟩
    (le_refl 1) (by norm_num [RagApi.cleanup_old_records, List.dropWhile])
  rw [h.2.2]
  norm_num

/-- C2 (amended): `get_instance` rejects only a falsy tenant id — the empty
string (and the untyped `isinstance` check, vacuous in a typed model) — with
a `ValueError`, before any cache lookup or handle construction; every
non-empty string, malformed or not, is accepted and proceeds to lookup and
construction.  The charset/length validation lives in the HTTP dependency
layer (`src/src/tenant_deps.py`), not in the pool. -/
theorem get_instance_validates_only_empty :
    (∀ (H : Type) (create : String → Option H) (max_instances : ℕ)
      (pool : List (String × H)) (tenant_id : String),
      (RagApi.get_instance create max_instances pool tenant_id).1
        = .error .invalidTenant ↔ tenant_id = "")
    ∧ (∀ (H : Type) (create : String → Option H) (max_instances : ℕ)
      (pool : List (String × H)),
      RagApi.get_instance create max_instances pool ""
        = (.error .invalidTenant, pool)) := by
  constructor
  · intro H create max_instances pool tenant_id
    unfold RagApi.get_instance
    by_cases h : tenant_id = ""
    · simp [h]
    · rw [if_neg h]
      simp only [iff_false_intro h, iff_false]
      cases hl : RagApi.lookupA pool tenant_id with
      | some hh => simp
      | none =>
        cases hc : create tenant_id with
        | none => simp
        | some hh => simp
  · intro H create max_instances pool
    unfold RagApi.get_instance
    rw [if_pos rfl]

/-- Counterexample to C2 as stated: the malformed tenant id `"bad id!"`
(spaces and punctuation, not alphanumeric/`_`/`-`) is not rejected —
`get_instance` accepts it, constructs a handle and caches it under the
malformed key. -/
theorem get_instance_accepts_malformed_id :
    RagApi.get_instance (fun t => some t) 50 [] "bad id!"
      = (.ok "bad id!", [("bad id!", "bad id!")]) := by
  rfl

/-- C5: the pool never exceeds `max_instances` after any sequence of
`get_instance`/`remove_instance` calls (given `max_instances ≥ 1`);
re-requesting a resident tenant returns the cached handle and changes
neither size nor eviction order; and in the concrete scenario with
`max_instances = 2`, requests for "a", "b", "c" leave the pool at size 2
with "a" (the first inserted) evicted, after which a request for "a"
constructs a fresh handle, evicting "b". -/
theorem pool_fifo_invariants :
    (∀ (H : Type) (create : String → Option H) (max_instances : ℕ)
      (ops : List RagApi.PoolOp) (pool : List (String × H)),
      1 ≤ max_instances → pool.length ≤ max_instances →
      (RagApi.run_pool create max_instances ops pool).length ≤ max_instances)
    ∧ (∀ (H : Type) (create : String → Option H) (max_instances : ℕ)
      (pool : List (String × H)) (tenant_id : String) (h : H),
      tenant_id ≠ "" → RagApi.lookupA pool tenant_id = some h →
      RagApi.get_instance create max_instances pool tenant_id = (.ok h, pool))
    ∧ (RagApi.run_pool (fun t => some t) 2
        [.get "a", .get "b", .get "c"] [] = [("b", "b"), ("c", "c")]
      ∧ RagApi.lookupA [("b", "b"), ("c", "c")] "a" = none
      ∧ RagApi.get_instance (fun t => some t) 2 [("b", "b"), ("c", "c")] "a"
        = (.ok "a", [("c", "c"), ("a", "a")])) := by
  refine ⟨?_, ?_, ?_, ?_, ?_⟩
  · intro H create max_instances ops pool hmax hlen
    exact RagApi.run_pool_length_le create max_instances hmax ops pool hlen
  · intro H create max_instances pool tenant_id h hne hl
    unfold RagApi.get_instance
    rw [if_neg hne, hl]
  · rfl
  · rfl
  · rfl

/-- Witness for `pool_fifo_invariants` at concrete inputs. -/
theorem pool_fifo_invariants_witness :
    (RagApi.run_pool (fun t => some t) 3 [.get "x", .get "y"]
      [("z", "z")]).length ≤ 3
    ∧ RagApi.get_instance (fun t => some t) 3 [("z", "z")] "z"
      = (.ok "z", [("z", "z")]) :=
  ⟨pool_fifo_invariants.1 String (fun t => some t) 3 [.get "x", .get "y"]
      [("z", "z")] (by norm_num) (by norm_num),
    pool_fifo_invariants.2.1 String (fun t => some t) 3 [("z", "z")] "z" "z"
      (by decide) (by decide)⟩

/-- C10: when the pool is at capacity and `get_instance` is called for a
cold tenant whose handle construction fails, the error propagates with the
longest-resident (first-inserted) tenant already evicted and the requested
tenant absent: the pool has shrunk by exactly one entry and the pre-error
eviction is not rolled back. -/
theorem eviction_not_rolled_back_on_create_failure :
    ∀ (H : Type) (create : String → Option H) (max_instances : ℕ)
      (pool : List (String × H)) (tenant_id : String),
      tenant_id ≠ "" → RagApi.lookupA pool tenant_id = none →
      1 ≤ max_instances → max_instances ≤ pool.length → create tenant_id = none →
      RagApi.get_instance create max_instances pool tenant_id
        = (.error .createFailed, pool.drop 1)
      ∧ (pool.drop 1).length + 1 = pool.length
      ∧ RagApi.lookupA (pool.drop 1) tenant_id = none := by
  intro H create max_instances pool tenant_id hne hl hmax hfull hcreate
  refine ⟨?_, ?_, ?_⟩
  · unfold RagApi.get_instance
    rw [if_neg hne, hl, if_pos hfull, hcreate]
  · rw [List.length_drop]
    omega
  · rw [RagApi.lookupA_eq_none_iff] at hl ⊢
    intro p hp
    exact hl p (List.drop_subset 1 pool hp)

/-- Witness for `eviction_not_rolled_back_on_create_failure` at a concrete
full pool whose construction fails. -/
theorem eviction_not_rolled_back_witness :
    RagApi.get_instance (fun _ => (none : Option String)) 2
      [("a", "ha"), ("b", "hb")] "c" = (.error .createFailed, [("b", "hb")])
    ∧ ([("b", "hb")] : List (String × String)).length + 1
      = ([("a", "ha"), ("b", "hb")] : List (String × String)).length
    ∧ RagApi.lookupA [("b", "hb")] "c" = none :=
  eviction_not_rolled_back_on_create_failure String (fun _ => none) 2
    [("a", "ha"), ("b", "hb")] "c" (by decide) (by decide) (by norm_num)
    (by norm_num) rfl

/-- C7 (amended): gate instances are memoized per service name alone — the
first call for a service fixes the gate's configuration from that call's
effective parameters, and every later call for the same service name
returns that gate and leaves the registry unchanged, regardless of the
override triple it passes.  (In particular two calls with the same
effective triple return the same instance; a distinct override triple does
NOT get a distinct gate.) -/
theorem rate_limiter_memoized_by_name :
    ∀ (env_max_async : String → Option ℕ) (service : String)
      (mc₁ rpm₁ tpm₁ mc₂ rpm₂ tpm₂ : Option ℕ)
      (limiters : List (String × RagApi.GateCfg)),
      RagApi.get_rate_limiter env_max_async service mc₂ rpm₂ tpm₂
          (RagApi.get_rate_limiter env_max_async service mc₁ rpm₁ tpm₁ limiters).2
        = ((RagApi.get_rate_limiter env_max_async service mc₁ rpm₁ tpm₁ limiters).1,
           (RagApi.get_rate_limiter env_max_async service mc₁ rpm₁ tpm₁ limiters).2) := by
  intro env service mc₁ rpm₁ tpm₁ mc₂ rpm₂ tpm₂ limiters
  cases hl : RagApi.lookupA limiters service with
  | some g =>
    rw [RagApi.get_rate_limiter_of_mem env service mc₁ rpm₁ tpm₁ limiters g hl]
    exact RagApi.get_rate_limiter_of_mem env service mc₂ rpm₂ tpm₂ limiters g hl
  | none =>
    exact RagApi.get_rate_limiter_of_mem env service mc₂ rpm₂ tpm₂ _ _
      (RagApi.get_rate_limiter_registers env service mc₁ rpm₁ tpm₁ limiters hl)

/-- Counterexample to C7 as stated: a first call for service `"llm"` with
overrides rpm=100, tpm=1000 creates and registers the gate
⟨concurrency 2, rpm 100, tpm 1000⟩; a second call for `"llm"` with the
distinct override triple (concurrency 50, rpm 7, tpm 9) does not get a
distinct gate configured with its own parameters — it gets the first
caller's gate, whose parameters differ from the requested ones. -/
theorem rate_limiter_ignores_second_triple :
    RagApi.get_rate_limiter (fun _ => none) "llm" none (some 100) (some 1000) []
      = (⟨2, 100, 1000⟩, [("llm", ⟨2, 100, 1000⟩)])
    ∧ RagApi.get_rate_limiter (fun _ => none) "llm" (some 50) (some 7) (some 9)
        [("llm", ⟨2, 100, 1000⟩)]
      = (⟨2, 100, 1000⟩, [("llm", ⟨2, 100, 1000⟩)])
    ∧ (⟨2, 100, 1000⟩ : RagApi.GateCfg).requests_per_minute ≠ 7
    ∧ (⟨2, 100, 1000⟩ : RagApi.GateCfg).max_concurrent ≠ 50 := by
  refine ⟨?_, ?_, by decide, by decide⟩
  · norm_num [RagApi.get_rate_limiter, RagApi.lookupA, RagApi.orDefault,
      RagApi.avg_tokens_for, RagApi.request_duration_for,
      RagApi.default_rpm_tpm_for, RagApi.calculate_optimal_concurrent,
      RagApi.pyIntTrunc, RagApi.insertA, Int.floor_eq_iff]
    decide
  · rfl

/-- C1 (amended): `update_task` is unconditional last-write-wins.  When the
(tenant_id, job_id) pair exists, every supplied field — including `status`,
and including when the stored status is terminal (`completed`/`failed`) —
is overwritten with the supplied value; the call is a no-op exactly when the
tenant or job id is absent.  No terminal-state guard exists in either
backend. -/
theorem update_task_last_write_wins :
    (∀ (st : RagApi.MemoryStore) (tenant task : String) (u : RagApi.TaskUpdate)
      (t : RagApi.TaskInfo),
      RagApi.get_task st tenant task = some t →
      RagApi.get_task (RagApi.update_task st tenant task u) tenant task
        = some (RagApi.applyUpdate u t))
    ∧ (∀ (st : RagApi.MemoryStore) (tenant task : String) (u : RagApi.TaskUpdate),
      RagApi.get_task st tenant task = none →
      RagApi.update_task st tenant task u = st)
    ∧ (∀ (st : RagApi.MemoryStore) (tenant task : String) (u : RagApi.TaskUpdate)
      (t : RagApi.TaskInfo) (s' : RagApi.TaskStatus),
      RagApi.get_task st tenant task = some t → u.status = some s' →
      (RagApi.get_task (RagApi.update_task st tenant task u) tenant task).map
        RagApi.TaskInfo.status = some s') := by
  refine ⟨?_, ?_, ?_⟩
  · intro st tenant task u t hget
    exact RagApi.get_task_update_eq st tenant task u t hget
  · intro st tenant task u hget
    exact RagApi.update_task_of_get_task_none st tenant task u hget
  · intro st tenant task u t s' hget hstat
    rw [RagApi.get_task_update_eq st tenant task u t hget]
    simp [RagApi.applyUpdate, hstat]

/-- Witness for `update_task_last_write_wins` at a concrete store: updating
the status of a stored completed record. -/
theorem update_task_last_write_wins_witness :
    RagApi.get_task
      (RagApi.update_task
        [("t1", [("j1", ⟨"j1", .completed, "d1", "f", "c", "c", none, none⟩)])]
        "t1" "j1" ⟨some .pending, none, none, none⟩) "t1" "j1"
      = some (RagApi.applyUpdate ⟨some .pending, none, none, none⟩
          ⟨"j1", .completed, "d1", "f", "c", "c", none, none⟩) :=
  update_task_last_write_wins.1
    [("t1", [("j1", ⟨"j1", .completed, "d1", "f", "c", "c", none, none⟩)])]
    "t1" "j1" ⟨some .pending, none, none, none⟩
    ⟨"j1", .completed, "d1", "f", "c", "c", none, none⟩ rfl

/-- Counterexample to C1 as stated: a job in the terminal state `completed`
is silently moved back to `pending` by a later `update_task` — the store
performs the transition out of the terminal state as a plain overwrite,
neither a no-op nor an error. -/
theorem update_task_overwrites_terminal_status :
    (RagApi.get_task
      (RagApi.create_task [] "t1"
        ⟨"j1", .completed, "d1", "f.pdf", "c0", "c0", none, none⟩)
      "t1" "j1").map RagApi.TaskInfo.status = some .completed
    ∧ (RagApi.get_task
      (RagApi.update_task
        (RagApi.create_task [] "t1"
          ⟨"j1", .completed, "d1", "f.pdf", "c0", "c0", none, none⟩)
        "t1" "j1" ⟨some .pending, some "u1", none, none⟩)
      "t1" "j1").map RagApi.TaskInfo.status = some .pending := by
  exact ⟨rfl, rfl⟩

/-- C4 (amended): while a job for the same tenant and subject (`doc_id`)
exists with status `pending` or `deleting` — the two in-flight statuses a
destructive job actually takes — a second `DELETE /documents` request is
rejected with the HTTP 400 conflict `"the doc is deleting"` and nothing is
queued.  A job with status `processing` does not block (see the
counterexample). -/
theorem delete_document_rejects_inflight :
    ∀ (st : RagApi.MemoryStore) (tenant doc task_id now : String)
      (t : RagApi.TaskInfo),
      t ∈ (RagApi.get_tenant_tasks st tenant).map Prod.snd →
      t.doc_id = doc →
      (t.status = .pending ∨ t.status = .deleting) →
      RagApi.delete_document st tenant doc task_id now
        = .error "the doc is deleting" := by
  intro st tenant doc task_id now t hmem hdoc hstat
  unfold RagApi.delete_document
  cases hg : RagApi.get_deletion_task st tenant doc with
  | some _ => rfl
  | none =>
    exfalso
    unfold RagApi.get_deletion_task at hg
    rw [List.find?_eq_none] at hg
    apply hg t hmem
    rcases hstat with h | h <;> simp [hdoc, h]

/-- Witness for `delete_document_rejects_inflight`: a pending deletion task
for the same document blocks a second request. -/
theorem delete_document_rejects_inflight_witness :
    RagApi.delete_document
      (RagApi.create_deletion_task [] "t1" "doc1" "j1" "c0")
      "t1" "doc1" "j2" "c1" = .error "the doc is deleting" :=
  delete_document_rejects_inflight
    (RagApi.create_deletion_task [] "t1" "doc1" "j1" "c0")
    "t1" "doc1" "j2" "c1"
    ⟨"j1", .pending, "doc1", "doc1", "c0", "c0", none, none⟩
    (by decide) rfl (Or.inl rfl)

/-- Counterexample to C4 as stated: a deletion task created through the
module's own interface and then updated to status `processing` (an
in-flight status per the claim) does not block — the guard only checks
`pending` and `deleting`, so the second destructive request on the same
subject is accepted rather than rejected as a conflict. -/
theorem delete_document_accepts_processing :
    (RagApi.get_task
      (RagApi.update_deletion_task
        (RagApi.create_deletion_task [] "t1" "doc1" "j1" "c0")
        "j1" "t1" ⟨some .processing, none, none, none⟩)
      "t1" "j1").map RagApi.TaskInfo.status = some .processing
    ∧ (RagApi.get_task
      (RagApi.update_deletion_task
        (RagApi.create_deletion_task [] "t1" "doc1" "j1" "c0")
        "j1" "t1" ⟨some .processing, none, none, none⟩)
      "t1" "j1").map RagApi.TaskInfo.doc_id = some "doc1"
    ∧ RagApi.delete_document
        (RagApi.update_deletion_task
          (RagApi.create_deletion_task [] "t1" "doc1" "j1" "c0")
          "j1" "t1" ⟨some .processing, none, none, none⟩)
        "t1" "doc1" "j2" "c1"
      = .ok ("j2", RagApi.create_deletion_task
          (RagApi.update_deletion_task
            (RagApi.create_deletion_task [] "t1" "doc1" "j1" "c0")
            "j1" "t1" ⟨some .processing, none, none, none⟩)
          "t1" "doc1" "j2" "c1") := by
  exact ⟨rfl, rfl, rfl⟩
